import Mathlib

/-!
Verification of the finanpy core (`finanpy_main.py`) against its
natural-language specification.

The Python functions are embedded shallowly:
* machine floats become exact rationals (`ℚ`);
* Python runtime failures (`ZeroDivisionError`, `AssertionError` from
  `assert`, `ValueError` from `np.ones` on an invalid size) become an
  explicit `Except PyError` result;
* numpy arrays and Python lists become `List ℚ`; the scalar-or-array
  polymorphism of `save_series` becomes the sum type `NumOrSeq`;
* the imperative loops become structural recursions that pass the loop
  state (`month` counter and the growing output lists) explicitly.
-/

/-- Runtime errors the embedded Python code can raise:
`divZero` for `ZeroDivisionError` (division by a float zero),
`assertFail` for a failed `assert` statement,
`valueError` for `np.ones` called with an invalid (negative or NaN) size. -/
inductive PyError where
  | divZero
  | assertFail
  | valueError
deriving DecidableEq, Repr

/-- Decidable equality of `Except` results, so that concrete runs of the
embedded code can be checked by `decide`. -/
instance exceptDecEq {ε α : Type} [DecidableEq ε] [DecidableEq α] :
    DecidableEq (Except ε α) := fun a b =>
  match a, b with
  | Except.error e, Except.error f =>
    if h : e = f then Decidable.isTrue (by rw [h])
    else Decidable.isFalse (by intro hc; cases hc; exact h rfl)
  | Except.error _, Except.ok _ => Decidable.isFalse (by intro hc; cases hc)
  | Except.ok _, Except.error _ => Decidable.isFalse (by intro hc; cases hc)
  | Except.ok x, Except.ok y =>
    if h : x = y then Decidable.isTrue (by rw [h])
    else Decidable.isFalse (by intro hc; cases hc; exact h rfl)

/-- Natural-number power on `ℚ` by structural recursion (used instead of
`Monoid.npow` so that concrete runs of the embedded code reduce inside the
kernel; `qpow_eq_pow` below identifies it with `q ^ n`). -/
def qpow (q : ℚ) : ℕ → ℚ
  | 0 => 1
  | n + 1 => qpow q n * q

/-- `amortize_month(p, pa, m)` from `finanpy_main.py`:
`r = pa/12.; R = (1+r)**m; c = r*R/(R-1)*p; ci = r*p; cp = c-ci; debt = p-cp;
return c, cp, ci, debt`.
Python raises `ZeroDivisionError` when the denominator `R - 1` is zero;
there is no special case for a zero rate and no validation of `m`. -/
def amortize_month (p pa : ℚ) (m : ℕ) : Except PyError (ℚ × ℚ × ℚ × ℚ) :=
  let r := pa / 12
  let R := qpow (1 + r) m
  if R - 1 = 0 then Except.error PyError.divZero
  else
    let c := r * R / (R - 1) * p
    let ci := r * p
    let cp := c - ci
    Except.ok (c, cp, ci, p - cp)

/-- The `output` dictionary built by `amortize_schedule`: six parallel
lists, one entry appended per month processed. -/
structure Schedule where
  month : List ℕ
  c : List ℚ
  cp : List ℚ
  ci : List ℚ
  debt : List ℚ
  ti : List ℚ
deriving DecidableEq, Repr

/-- One body execution of the inner loop of `amortize_schedule`: append the
month number and the four components returned by `amortize_month`, and extend
the running total interest (`output['ti'][-1] + dat[2]`). -/
def pushMonth (out : Schedule) (m : ℕ) (dat : ℚ × ℚ × ℚ × ℚ) : Schedule :=
  { month := out.month ++ [m]
    c := out.c ++ [dat.1]
    cp := out.cp ++ [dat.2.1]
    ci := out.ci ++ [dat.2.2.1]
    debt := out.debt ++ [dat.2.2.2]
    ti := out.ti ++ [out.ti.getLast! + dat.2.2.1] }

/-- The inner `for i in range(12)` loop of `amortize_schedule`, iterated a
given number of times for the year rate `r`.  The state is the current month
counter `m` and the output so far; `rm = tot_m - m` is recomputed each
iteration and `amortize_month` is applied to `output['debt'][-1]`. -/
def yearMonths (tot_m : ℕ) (r : ℚ) : ℕ → ℕ × Schedule → Except PyError (ℕ × Schedule)
  | 0, st => Except.ok st
  | i + 1, (m, out) =>
    match amortize_month out.debt.getLast! r (tot_m - m) with
    | Except.error e => Except.error e
    | Except.ok dat => yearMonths tot_m r i (m + 1, pushMonth out (m + 1) dat)

/-- The outer `for r_ind, r in enumerate(pa)` loop of `amortize_schedule`. -/
def scheduleYears (tot_m : ℕ) : List ℚ → ℕ × Schedule → Except PyError (ℕ × Schedule)
  | [], st => Except.ok st
  | r :: rest, st =>
    match yearMonths tot_m r 12 st with
    | Except.error e => Except.error e
    | Except.ok st' => scheduleYears tot_m rest st'

/-- Record 0 of the schedule:
`{'month': [0], 'c': [0], 'cp': [0], 'ci': [0], 'debt': [p], 'ti': [0]}`. -/
def init_schedule (p : ℚ) : Schedule :=
  { month := [0], c := [0], cp := [0], ci := [0], debt := [p], ti := [0] }

/-- `amortize_schedule(p, pa)` from `finanpy_main.py`: `tot_m = 12*len(pa)`,
then the nested year/month loops starting from record 0. -/
def amortize_schedule (p : ℚ) (pa : List ℚ) : Except PyError Schedule :=
  match scheduleYears (12 * pa.length) pa (0, init_schedule p) with
  | Except.error e => Except.error e
  | Except.ok st => Except.ok st.2

/-- A Python value that is either a number or a numpy array / list of
numbers, for the scalar-or-sequence polymorphic arguments of
`save_series`. -/
inductive NumOrSeq where
  | num : ℚ → NumOrSeq
  | seq : List ℚ → NumOrSeq

/-- The inner `for i in range(12)` loop of `save_series`, iterated a given
number of times for the year rate `r`.  The state is the contribution index
`m` (the Python code keeps it as the list `m` whose last entry is the next
index to use) and the savings list `s`; the body appends
`s[-1]*(1+r/12) + c[m[-1]]`. -/
def saveMonths (cL : List ℚ) (r : ℚ) : ℕ → ℕ × List ℚ → ℕ × List ℚ
  | 0, st => st
  | i + 1, (m, s) => saveMonths cL r i (m + 1, s ++ [s.getLast! * (1 + r / 12) + cL.getD m 0])

/-- The outer `for r_ind, r in enumerate(pa)` loop of `save_series`. -/
def saveYears (cL : List ℚ) : List ℚ → ℕ × List ℚ → ℕ × List ℚ
  | [], st => st
  | r :: rest, st => saveYears cL rest (saveMonths cL r 12 st)

/-- The part of `save_series` that runs once `pa` has been resolved to a
per-year list `paL` (the code sets `y = len(pa)` when `pa` is a sequence, so
the resolved `y` always equals `paL.length`): broadcast a scalar `c` to
`np.ones(y*12)*c`, check `assert len(c) == len(pa)*12`, then run the loop
from `s = [0]`, `m = [0]`. -/
def save_core (c : NumOrSeq) (paL : List ℚ) : Except PyError (List ℚ) :=
  let cL := match c with
    | NumOrSeq.seq l => l
    | NumOrSeq.num cv => List.replicate (paL.length * 12) cv
  if cL.length = paL.length * 12 then Except.ok (saveYears cL paL (0, [0])).2
  else Except.error PyError.assertFail

/-- `save_series(c, pa, y=np.NaN)` from `finanpy_main.py`.  When `pa` is a
sequence, `y` is overwritten with `len(pa)`.  When `pa` is a scalar it is
broadcast to `np.ones(y)*pa`, which raises (`np.ones(np.NaN)` is a
`TypeError`/`ValueError`) when the optional `y` was not supplied; the code
never derives `y` from the length of `c`. -/
def save_series (c pa : NumOrSeq) (y : Option ℕ) : Except PyError (List ℚ) :=
  match pa, y with
  | NumOrSeq.seq l, _ => save_core c l
  | NumOrSeq.num r, some yv => save_core c (List.replicate yv r)
  | NumOrSeq.num _, none => Except.error PyError.valueError

/-- `mortgage_invest(p, ms, Rr, Hr, Y1, Y2)` from `finanpy_main.py`.
`np.zeros(Y) + Hr` and `np.ones(Y) * Rr` are `Y` copies of the rate;
`np.append(msav1, np.ones((Y2-Y1)*12)*ms)` raises `ValueError` when
`Y2 < Y1` (negative dimension); only `msav1` is checked by the
`assert sum(msav1 < 0) == 0` statement, `msav2` is not. -/
def mortgage_invest (p ms Rr Hr : ℚ) (Y1 Y2 : ℕ) : Except PyError (List ℚ × List ℚ) :=
  match amortize_schedule p (List.replicate Y1 Hr) with
  | Except.error e => Except.error e
  | Except.ok output1 =>
    if Y2 < Y1 then Except.error PyError.valueError
    else
      let msav1 := (output1.c.drop 1).map (fun x => ms - x) ++ List.replicate ((Y2 - Y1) * 12) ms
      if msav1.any (fun x => decide (x < 0)) then Except.error PyError.assertFail
      else
        match save_series (NumOrSeq.seq msav1) (NumOrSeq.seq (List.replicate Y2 Rr)) none with
        | Except.error e => Except.error e
        | Except.ok S1 =>
          match amortize_schedule p (List.replicate Y2 Hr) with
          | Except.error e => Except.error e
          | Except.ok output2 =>
            match save_series (NumOrSeq.seq ((output2.c.drop 1).map (fun x => ms - x)))
                (NumOrSeq.seq (List.replicate Y2 Rr)) none with
            | Except.error e => Except.error e
            | Except.ok S2 => Except.ok (S1, S2)

/-- The computations performed by the body of `homevsrent(Y, p, REr, rent,
inflation, Rr, fc)`: a schedule at the hardcoded rate `0.026`, the house
price projection `Hp`, home savings `Hs`, the inflating rent stream `rr`,
and the rental savings `Rs = save_series(c[1:] - rr, Rr, Y)`.  The four
series a caller could hope for are `(Hs, Rs, ci[1:], rr)`. -/
def homevsrent_body (Y : ℕ) (p REr rent inflation Rr fc : ℚ) :
    Except PyError (List ℚ × List ℚ × List ℚ × List ℚ) :=
  match amortize_schedule p (List.replicate Y (26 / 1000)) with
  | Except.error e => Except.error e
  | Except.ok output =>
    let Hp := (List.range (Y * 12 + 1)).map (fun y => p * qpow (1 + REr / 12) y)
    let Hs := List.zipWith (fun hp d => hp - fc * p - d) Hp output.debt
    let rr := (List.range (Y * 12)).map (fun y => rent * qpow (1 + inflation / 12) y)
    match save_series (NumOrSeq.seq (List.zipWith (fun a b => a - b) (output.c.drop 1) rr))
        (NumOrSeq.num Rr) (some Y) with
    | Except.error e => Except.error e
    | Except.ok Rs => Except.ok (Hs, Rs, output.ci.drop 1, rr)

/-- `homevsrent(Y, p, REr, rent, inflation, Rr, fc)` from `finanpy_main.py`.
The function body computes the series of `homevsrent_body` and plots them,
but it contains no `return` statement, so when it does not raise it falls
off the end and the call evaluates to Python `None` (modelled as
`Option.none`); nothing it computed is handed back to the caller. -/
def homevsrent (Y : ℕ) (p REr rent inflation Rr fc : ℚ) :
    Except PyError (Option (List ℚ × List ℚ × List ℚ × List ℚ)) :=
  match homevsrent_body Y p REr rent inflation Rr fc with
  | Except.error e => Except.error e
  | Except.ok _ => Except.ok none

/-!
## Proof infrastructure

Auxiliary definitions used to reason about the loops above: a flattened
per-month rate list, a flattened form of each nested loop, a pure
month-by-month record sequence `amortSeq` for the amortization loop and
`saveSeq` for the savings loop, and the discounted-contribution fold
`foldPay` that characterizes the final value of a constant-rate savings
series.
-/

/-- The per-month rate list of a per-year rate list: each annual rate is
applied to all 12 months of its year. -/
def monthRates (pa : List ℚ) : List ℚ := pa.bind (fun r => List.replicate 12 r)

/-- Flattened form of the nested loops of `amortize_schedule`: one step per
entry of the per-month rate list. -/
def monthsLoop (tot_m : ℕ) : List ℚ → ℕ × Schedule → Except PyError (ℕ × Schedule)
  | [], st => Except.ok st
  | r :: rest, (m, out) =>
    match amortize_month out.debt.getLast! r (tot_m - m) with
    | Except.error e => Except.error e
    | Except.ok dat => monthsLoop tot_m rest (m + 1, pushMonth out (m + 1) dat)

/-- Pure month-by-month amortization: the list of `(c, cp, ci, debt)`
records produced from debt `d` by the remaining per-month rates.  The
months-remaining argument passed to `amortize_month` is the number of rates
still to process. -/
def amortSeq (d : ℚ) : List ℚ → Except PyError (List (ℚ × ℚ × ℚ × ℚ))
  | [] => Except.ok []
  | r :: rest =>
    match amortize_month d r (rest.length + 1) with
    | Except.error e => Except.error e
    | Except.ok dat =>
      match amortSeq dat.2.2.2 rest with
      | Except.error e => Except.error e
      | Except.ok tail => Except.ok (dat :: tail)

/-- Append a list of month records to a schedule, starting at month `m+1`. -/
def pushAll : ℕ → Schedule → List (ℚ × ℚ × ℚ × ℚ) → Schedule
  | _, out, [] => out
  | m, out, dat :: rest => pushAll (m + 1) (pushMonth out (m + 1) dat) rest

/-- Running cumulative sums of a list starting from total `t`. -/
def cumFrom (t : ℚ) : List ℚ → List ℚ
  | [] => []
  | x :: xs => (t + x) :: cumFrom (t + x) xs

/-- Payment of a month record. -/
def payRec (dat : ℚ × ℚ × ℚ × ℚ) : ℚ := dat.1

/-- Principal portion of a month record. -/
def cpRec (dat : ℚ × ℚ × ℚ × ℚ) : ℚ := dat.2.1

/-- Interest portion of a month record. -/
def ciRec (dat : ℚ × ℚ × ℚ × ℚ) : ℚ := dat.2.2.1

/-- Remaining debt of a month record. -/
def debtRec (dat : ℚ × ℚ × ℚ × ℚ) : ℚ := dat.2.2.2

/-- Local shape of a successful amortization record sequence: each record
splits its payment into principal and interest, and reduces the running
debt by its principal portion. -/
def RecSpec : ℚ → List (ℚ × ℚ × ℚ × ℚ) → Prop
  | _, [] => True
  | d, dat :: rest =>
    payRec dat = cpRec dat + ciRec dat ∧ debtRec dat = d - cpRec dat ∧
    RecSpec (debtRec dat) rest

/-- Final value of a savings series with per-month growth factor `q` and
the given monthly contributions, starting from 0:
`s_k = s_(k-1) * q + contribution_k`. -/
def foldPay (q : ℚ) (l : List ℚ) : ℚ := l.foldl (fun s x => s * q + x) 0

/-- Flattened form of the nested loops of `save_series`: one step per entry
of the per-month rate list. -/
def saveFlat (cL : List ℚ) : List ℚ → ℕ × List ℚ → ℕ × List ℚ
  | [], st => st
  | r :: rest, (m, s) =>
    saveFlat cL rest (m + 1, s ++ [s.getLast! * (1 + r / 12) + cL.getD m 0])

/-- Pure month-by-month savings accumulation over paired
(monthly rate, contribution) entries, returning the values after the
start value `s`. -/
def saveSeq : List (ℚ × ℚ) → ℚ → List ℚ
  | [], _ => []
  | rc :: rest, s =>
    (s * (1 + rc.1 / 12) + rc.2) :: saveSeq rest (s * (1 + rc.1 / 12) + rc.2)

/-- The short-term contribution series of `mortgage_invest`, exactly as the
code computes it before the `assert`: `ms - output1['c'][1:]` extended by
`(Y2-Y1)*12` copies of `ms` (raising `ValueError` when `Y2 < Y1`). -/
def msav1_of (p ms Hr : ℚ) (Y1 Y2 : ℕ) : Except PyError (List ℚ) :=
  match amortize_schedule p (List.replicate Y1 Hr) with
  | Except.error e => Except.error e
  | Except.ok output1 =>
    if Y2 < Y1 then Except.error PyError.valueError
    else Except.ok
      ((output1.c.drop 1).map (fun x => ms - x) ++ List.replicate ((Y2 - Y1) * 12) ms)

/-! ## List helpers -/

lemma qpow_eq_pow (q : ℚ) (n : ℕ) : qpow q n = q ^ n := by
  induction n with
  | zero => rfl
  | succ k ih => rw [qpow, ih, pow_succ]

lemma getLastBang_cons (a : ℚ) (l : List ℚ) : (a :: l).getLast! = l.getLastD a := by
  induction l generalizing a with
  | nil => rfl
  | cons b t ih => rw [List.getLastD_cons]; exact ih b

lemma getLastBang_concat (l : List ℚ) (x : ℚ) : (l ++ [x]).getLast! = x := by
  cases l with
  | nil => rfl
  | cons a t => rw [List.cons_append, getLastBang_cons]; simp

lemma getD_replicate (n j : ℕ) (r : ℚ) (hj : j < n) : (List.replicate n r).getD j 0 = r := by
  rw [List.getD_eq_getElem _ _ (by simpa using hj)]
  simp

lemma monthRates_nil : monthRates [] = [] := rfl

lemma monthRates_cons (r : ℚ) (pa : List ℚ) :
    monthRates (r :: pa) = List.replicate 12 r ++ monthRates pa := rfl

lemma length_monthRates (pa : List ℚ) : (monthRates pa).length = 12 * pa.length := by
  induction pa with
  | nil => rfl
  | cons r t ih =>
    rw [monthRates_cons, List.length_append, List.length_replicate, ih, List.length_cons]
    ring

lemma monthRates_replicate (Y : ℕ) (r : ℚ) :
    monthRates (List.replicate Y r) = List.replicate (12 * Y) r := by
  induction Y with
  | zero => rfl
  | succ k ih =>
    rw [List.replicate_succ, monthRates_cons, ih, Nat.mul_succ, Nat.add_comm,
      List.replicate_add]

lemma mem_monthRates {x : ℚ} {pa : List ℚ} (h : x ∈ monthRates pa) : x ∈ pa := by
  unfold monthRates at h
  rcases List.mem_bind.mp h with ⟨r, hr, hx⟩
  rcases List.eq_of_mem_replicate hx with rfl
  exact hr

lemma zip_getD (l1 l2 : List ℚ) (j : ℕ) (h1 : j < l1.length) (h2 : j < l2.length) :
    (l1.zip l2).getD j (0, 0) = (l1.getD j 0, l2.getD j 0) := by
  induction l1 generalizing l2 j with
  | nil => simp at h1
  | cons a t1 ih =>
    cases l2 with
    | nil => simp at h2
    | cons b t2 =>
      cases j with
      | zero => simp [List.zip_cons_cons]
      | succ k =>
        rw [List.zip_cons_cons, List.getD_cons_succ, List.getD_cons_succ,
          List.getD_cons_succ]
        exact ih t2 k (by simpa using h1) (by simpa using h2)

lemma zip_replicate_eq_map (r : ℚ) (c : List ℚ) (n : ℕ) (h : c.length = n) :
    (List.replicate n r).zip c = c.map (fun x => (r, x)) := by
  induction c generalizing n with
  | nil => subst h; rfl
  | cons x t ih =>
    subst h
    rw [List.length_cons, List.replicate_succ, List.zip_cons_cons, List.map_cons,
      ih t.length rfl]

/-! ## Characterization of `amortize_month` -/

lemma amortize_month_divZero_iff (p pa : ℚ) (m : ℕ) :
    amortize_month p pa m = Except.error PyError.divZero ↔ (1 + pa / 12) ^ m = 1 := by
  unfold amortize_month
  dsimp only
  rw [qpow_eq_pow]
  split_ifs with h
  · simp only [true_iff]
    linarith [h]
  · have hne : ((1 : ℚ) + pa / 12) ^ m ≠ 1 := fun hc => h (by rw [hc]; ring)
    simp [hne]

lemma amortize_month_ok_inv {p pa : ℚ} {m : ℕ} {dat : ℚ × ℚ × ℚ × ℚ}
    (h : amortize_month p pa m = Except.ok dat) :
    (1 + pa / 12) ^ m - 1 ≠ 0 ∧
    payRec dat = pa / 12 * (1 + pa / 12) ^ m / ((1 + pa / 12) ^ m - 1) * p ∧
    ciRec dat = pa / 12 * p ∧
    cpRec dat = payRec dat - ciRec dat ∧
    debtRec dat = p - cpRec dat := by
  unfold amortize_month at h
  dsimp only at h
  rw [qpow_eq_pow] at h
  split_ifs at h with hR
  have hd : dat = _ := (Except.ok.inj h).symm
  subst hd
  exact ⟨hR, rfl, rfl, rfl, rfl⟩

lemma amortize_month_eq_ok (p pa : ℚ) (m : ℕ) (h : (1 + pa / 12) ^ m - 1 ≠ 0) :
    amortize_month p pa m = Except.ok
      (pa / 12 * (1 + pa / 12) ^ m / ((1 + pa / 12) ^ m - 1) * p,
       pa / 12 * (1 + pa / 12) ^ m / ((1 + pa / 12) ^ m - 1) * p - pa / 12 * p,
       pa / 12 * p,
       p - (pa / 12 * (1 + pa / 12) ^ m / ((1 + pa / 12) ^ m - 1) * p - pa / 12 * p)) := by
  unfold amortize_month
  dsimp only
  rw [qpow_eq_pow]
  rw [if_neg h]

lemma amortize_month_step_debt {p pa : ℚ} {m : ℕ} {dat : ℚ × ℚ × ℚ × ℚ}
    (h : amortize_month p pa m = Except.ok dat) :
    debtRec dat = p * (1 + pa / 12) - payRec dat := by
  obtain ⟨-, -, hci, hcp, hdebt⟩ := amortize_month_ok_inv h
  rw [hdebt, hcp, hci]
  ring

/-! ## Flattening the nested loops of `amortize_schedule` -/

lemma yearMonths_eq_monthsLoop (tot : ℕ) (r : ℚ) (n : ℕ) (st : ℕ × Schedule) :
    yearMonths tot r n st = monthsLoop tot (List.replicate n r) st := by
  induction n generalizing st with
  | zero => rfl
  | succ k ih =>
    obtain ⟨m, out⟩ := st
    rw [List.replicate_succ]
    simp only [yearMonths, monthsLoop]
    cases hA : amortize_month out.debt.getLast! r (tot - m) with
    | error e => rfl
    | ok dat => exact ih _

lemma monthsLoop_append (tot : ℕ) (l₁ l₂ : List ℚ) (st : ℕ × Schedule) :
    monthsLoop tot (l₁ ++ l₂) st =
      match monthsLoop tot l₁ st with
      | Except.error e => Except.error e
      | Except.ok st' => monthsLoop tot l₂ st' := by
  induction l₁ generalizing st with
  | nil => simp [monthsLoop]
  | cons r rest ih =>
    obtain ⟨m, out⟩ := st
    rw [List.cons_append]
    simp only [monthsLoop]
    cases hA : amortize_month out.debt.getLast! r (tot - m) with
    | error e => rfl
    | ok dat => exact ih _

lemma scheduleYears_eq_monthsLoop (tot : ℕ) (pa : List ℚ) (st : ℕ × Schedule) :
    scheduleYears tot pa st = monthsLoop tot (monthRates pa) st := by
  induction pa generalizing st with
  | nil => rfl
  | cons r rest ih =>
    rw [monthRates_cons]
    simp only [scheduleYears]
    rw [monthsLoop_append, ← yearMonths_eq_monthsLoop]
    cases hY : yearMonths tot r 12 st with
    | error e => rfl
    | ok st' => exact ih _

/-! ## `monthsLoop` in terms of the pure record sequence `amortSeq` -/

lemma pushMonth_debt_getLast (out : Schedule) (m : ℕ) (dat : ℚ × ℚ × ℚ × ℚ) :
    (pushMonth out m dat).debt.getLast! = debtRec dat := by
  simp only [pushMonth]
  exact getLastBang_concat _ _

lemma monthsLoop_eq_amortSeq (tot : ℕ) (rates : List ℚ) (m : ℕ) (out : Schedule)
    (h : m + rates.length = tot) :
    monthsLoop tot rates (m, out) =
      match amortSeq out.debt.getLast! rates with
      | Except.error e => Except.error e
      | Except.ok recs => Except.ok (m + rates.length, pushAll m out recs) := by
  induction rates generalizing m out with
  | nil => simp [monthsLoop, amortSeq, pushAll]
  | cons r rest ih =>
    have hrm : tot - m = rest.length + 1 := by
      rw [List.length_cons] at h
      omega
    simp only [monthsLoop, amortSeq, hrm]
    cases hA : amortize_month out.debt.getLast! r (rest.length + 1) with
    | error e => rfl
    | ok dat =>
      dsimp only
      rw [ih (m + 1) (pushMonth out (m + 1) dat)
        (by rw [List.length_cons] at h; omega)]
      have hd : (pushMonth out (m + 1) dat).debt.getLast! = dat.2.2.2 := by
        simp only [pushMonth]
        exact getLastBang_concat _ _
      rw [hd]
      cases hT : amortSeq dat.2.2.2 rest with
      | error e => rfl
      | ok recs =>
        dsimp only
        rw [Except.ok.injEq, Prod.mk.injEq]
        refine ⟨?_, rfl⟩
        rw [List.length_cons]
        omega

lemma amortize_schedule_eq (p : ℚ) (pa : List ℚ) :
    amortize_schedule p pa =
      match amortSeq p (monthRates pa) with
      | Except.error e => Except.error e
      | Except.ok recs => Except.ok (pushAll 0 (init_schedule p) recs) := by
  unfold amortize_schedule
  rw [scheduleYears_eq_monthsLoop,
    monthsLoop_eq_amortSeq (12 * pa.length) (monthRates pa) 0 (init_schedule p)
      (by rw [length_monthRates]; omega)]
  have hd : (init_schedule p).debt.getLast! = p := rfl
  rw [hd]
  cases amortSeq p (monthRates pa) with
  | error e => rfl
  | ok recs => rfl

/-! ## Components of `pushAll` -/

lemma pushAll_c (recs : List (ℚ × ℚ × ℚ × ℚ)) : ∀ (m : ℕ) (out : Schedule),
    (pushAll m out recs).c = out.c ++ recs.map payRec := by
  induction recs with
  | nil => intro m out; simp [pushAll]
  | cons dat rest ih =>
    intro m out
    simp only [pushAll, List.map_cons]
    rw [ih]
    simp [pushMonth, payRec]

lemma pushAll_cp (recs : List (ℚ × ℚ × ℚ × ℚ)) : ∀ (m : ℕ) (out : Schedule),
    (pushAll m out recs).cp = out.cp ++ recs.map cpRec := by
  induction recs with
  | nil => intro m out; simp [pushAll]
  | cons dat rest ih =>
    intro m out
    simp only [pushAll, List.map_cons]
    rw [ih]
    simp [pushMonth, cpRec]

lemma pushAll_ci (recs : List (ℚ × ℚ × ℚ × ℚ)) : ∀ (m : ℕ) (out : Schedule),
    (pushAll m out recs).ci = out.ci ++ recs.map ciRec := by
  induction recs with
  | nil => intro m out; simp [pushAll]
  | cons dat rest ih =>
    intro m out
    simp only [pushAll, List.map_cons]
    rw [ih]
    simp [pushMonth, ciRec]

lemma pushAll_debt (recs : List (ℚ × ℚ × ℚ × ℚ)) : ∀ (m : ℕ) (out : Schedule),
    (pushAll m out recs).debt = out.debt ++ recs.map debtRec := by
  induction recs with
  | nil => intro m out; simp [pushAll]
  | cons dat rest ih =>
    intro m out
    simp only [pushAll, List.map_cons]
    rw [ih]
    simp [pushMonth, debtRec]

lemma pushAll_ti (recs : List (ℚ × ℚ × ℚ × ℚ)) : ∀ (m : ℕ) (out : Schedule),
    (pushAll m out recs).ti = out.ti ++ cumFrom out.ti.getLast! (recs.map ciRec) := by
  induction recs with
  | nil => intro m out; simp [pushAll, cumFrom]
  | cons dat rest ih =>
    intro m out
    simp only [pushAll, List.map_cons, cumFrom]
    rw [ih]
    simp only [pushMonth]
    rw [getLastBang_concat]
    simp [ciRec, List.append_assoc]

/-! ## Facts about `amortSeq` -/

lemma amortSeq_cons_ok {d r : ℚ} {rest : List ℚ} {recs : List (ℚ × ℚ × ℚ × ℚ)}
    (h : amortSeq d (r :: rest) = Except.ok recs) :
    ∃ dat tail, amortize_month d r (rest.length + 1) = Except.ok dat ∧
      amortSeq (debtRec dat) rest = Except.ok tail ∧ recs = dat :: tail := by
  simp only [amortSeq] at h
  cases hA : amortize_month d r (rest.length + 1) with
  | error e => rw [hA] at h; simp at h
  | ok dat =>
    rw [hA] at h
    dsimp only at h
    cases hT : amortSeq dat.2.2.2 rest with
    | error e => rw [hT] at h; simp at h
    | ok tail =>
      rw [hT] at h
      dsimp only at h
      exact ⟨dat, tail, rfl, hT, (Except.ok.inj h).symm⟩

lemma amortSeq_ok_length {rates : List ℚ} :
    ∀ {d : ℚ} {recs : List (ℚ × ℚ × ℚ × ℚ)}, amortSeq d rates = Except.ok recs →
      recs.length = rates.length := by
  induction rates with
  | nil =>
    intro d recs h
    simp only [amortSeq] at h
    obtain rfl : recs = _ := (Except.ok.inj h).symm
    rfl
  | cons r rest ih =>
    intro d recs h
    obtain ⟨dat, tail, -, hT, rfl⟩ := amortSeq_cons_ok h
    rw [List.length_cons, List.length_cons, ih hT]

lemma amortSeq_ok_of_pos {rates : List ℚ} (hpos : ∀ r ∈ rates, 0 < r) :
    ∀ d : ℚ, ∃ recs, amortSeq d rates = Except.ok recs := by
  induction rates with
  | nil => intro d; exact ⟨[], rfl⟩
  | cons r rest ih =>
    intro d
    have hr : 0 < r := hpos r (by simp)
    have hq : (1 : ℚ) < 1 + r / 12 := by linarith
    have hR : (1 : ℚ) < (1 + r / 12) ^ (rest.length + 1) := one_lt_pow₀ hq (by omega)
    have hne : (1 + r / 12) ^ (rest.length + 1) - 1 ≠ 0 := by
      intro hc
      linarith
    obtain ⟨tail, htail⟩ := ih (fun x hx => hpos x (by simp [hx]))
      (d - (r / 12 * (1 + r / 12) ^ (rest.length + 1) / ((1 + r / 12) ^ (rest.length + 1) - 1) * d
        - r / 12 * d))
    refine ⟨(r / 12 * (1 + r / 12) ^ (rest.length + 1) / ((1 + r / 12) ^ (rest.length + 1) - 1) * d,
        r / 12 * (1 + r / 12) ^ (rest.length + 1) / ((1 + r / 12) ^ (rest.length + 1) - 1) * d
          - r / 12 * d,
        r / 12 * d,
        d - (r / 12 * (1 + r / 12) ^ (rest.length + 1) / ((1 + r / 12) ^ (rest.length + 1) - 1) * d
          - r / 12 * d)) :: tail, ?_⟩
    simp only [amortSeq]
    rw [amortize_month_eq_ok d r (rest.length + 1) hne]
    dsimp only
    rw [htail]

lemma amortSeq_recSpec {rates : List ℚ} :
    ∀ {d : ℚ} {recs : List (ℚ × ℚ × ℚ × ℚ)}, amortSeq d rates = Except.ok recs →
      RecSpec d recs := by
  induction rates with
  | nil =>
    intro d recs h
    simp only [amortSeq] at h
    obtain rfl : recs = _ := (Except.ok.inj h).symm
    trivial
  | cons r rest ih =>
    intro d recs h
    obtain ⟨dat, tail, hA, hT, rfl⟩ := amortSeq_cons_ok h
    obtain ⟨-, hc, hci, hcp, hdebt⟩ := amortize_month_ok_inv hA
    refine ⟨?_, ?_, ?_⟩
    · rw [hcp]; ring
    · exact hdebt
    · exact ih hT

lemma amortSeq_final_debt {rates : List ℚ} (hrne : rates ≠ []) :
    ∀ {d : ℚ} {recs : List (ℚ × ℚ × ℚ × ℚ)}, amortSeq d rates = Except.ok recs →
      (recs.map debtRec).getLastD d = 0 := by
  induction rates with
  | nil => exact absurd rfl hrne
  | cons r rest ih =>
    intro d recs h
    obtain ⟨dat, tail, hA, hT, rfl⟩ := amortSeq_cons_ok h
    rw [List.map_cons, List.getLastD_cons]
    cases hrest : rest with
    | nil =>
      subst hrest
      obtain rfl : tail = [] := List.length_eq_zero.mp (amortSeq_ok_length hT)
      obtain ⟨hR, hc, hci, hcp, hdebt⟩ := amortize_month_ok_inv hA
      simp only [List.length_nil, Nat.zero_add, pow_one] at hR hc
      have hr12 : r / 12 ≠ 0 := by
        intro hz
        exact hR (by rw [hz]; ring)
      simp only [List.map_nil, List.getLastD_nil]
      rw [hdebt, hcp, hc, hci]
      have hcan : r / 12 * (1 + r / 12) / (1 + r / 12 - 1) = 1 + r / 12 := by
        rw [show (1 : ℚ) + r / 12 - 1 = r / 12 by ring]
        rw [mul_comm, mul_div_assoc, div_self hr12, mul_one]
      rw [hcan]
      ring
    | cons r2 rest2 =>
      subst hrest
      exact ih (by simp) hT

/-! ## The discounted-contribution fold -/

lemma foldl_step_from (q : ℚ) (l : List ℚ) (s : ℚ) :
    l.foldl (fun a x => a * q + x) s =
      s * q ^ l.length + l.foldl (fun a x => a * q + x) 0 := by
  induction l generalizing s with
  | nil => simp
  | cons x t ih =>
    rw [List.foldl_cons, List.foldl_cons, ih (s * q + x), ih (0 * q + x), List.length_cons]
    ring

lemma foldPay_from (q : ℚ) (l : List ℚ) (s : ℚ) :
    l.foldl (fun a x => a * q + x) s = s * q ^ l.length + foldPay q l := by
  rw [foldl_step_from]
  rfl

lemma foldPay_cons (q x : ℚ) (t : List ℚ) :
    foldPay q (x :: t) = x * q ^ t.length + foldPay q t := by
  unfold foldPay
  rw [List.foldl_cons, foldl_step_from]
  ring

lemma foldPay_append (q : ℚ) (a b : List ℚ) :
    foldPay q (a ++ b) = foldPay q a * q ^ b.length + foldPay q b := by
  unfold foldPay
  rw [List.foldl_append, foldl_step_from]

lemma foldPay_map_sub (q ms : ℚ) (l : List ℚ) :
    foldPay q (l.map (fun x => ms - x)) =
      foldPay q (List.replicate l.length ms) - foldPay q l := by
  induction l with
  | nil => simp [foldPay]
  | cons x t ih =>
    rw [List.map_cons, foldPay_cons, List.length_cons, List.replicate_succ, foldPay_cons,
      foldPay_cons, ih, List.length_map, List.length_replicate]
    ring

/-! ## Debt of a constant-rate schedule in terms of `foldPay` -/

lemma amortSeq_debt_foldPay {r : ℚ} {n : ℕ} :
    ∀ {d : ℚ} {recs : List (ℚ × ℚ × ℚ × ℚ)},
      amortSeq d (List.replicate n r) = Except.ok recs →
      (recs.map debtRec).getLastD d =
        d * (1 + r / 12) ^ n - foldPay (1 + r / 12) (recs.map payRec) := by
  induction n with
  | zero =>
    intro d recs h
    simp only [List.replicate, amortSeq] at h
    obtain rfl : recs = _ := (Except.ok.inj h).symm
    simp [foldPay]
  | succ k ih =>
    intro d recs h
    rw [List.replicate_succ] at h
    obtain ⟨dat, tail, hA, hT, rfl⟩ := amortSeq_cons_ok h
    rw [List.length_replicate] at hA
    have hstep : debtRec dat = d * (1 + r / 12) - payRec dat :=
      amortize_month_step_debt hA
    have hlen : tail.length = k := by
      rw [amortSeq_ok_length hT, List.length_replicate]
    rw [List.map_cons, List.getLastD_cons, ih hT, List.map_cons, foldPay_cons,
      List.length_map, hlen, hstep, pow_succ]
    ring

/-! ## Debt monotonicity and nonnegativity -/

lemma amortSeq_debt_bounds {rates : List ℚ} (hpos : ∀ r ∈ rates, 0 < r) :
    ∀ {d : ℚ} {recs : List (ℚ × ℚ × ℚ × ℚ)}, 0 ≤ d →
      amortSeq d rates = Except.ok recs →
      List.Chain' (fun a b => b ≤ a) (d :: recs.map debtRec) ∧
        ∀ x ∈ d :: recs.map debtRec, 0 ≤ x := by
  induction rates with
  | nil =>
    intro d recs hd h
    simp only [amortSeq] at h
    obtain rfl : recs = _ := (Except.ok.inj h).symm
    exact ⟨by simp, by simpa using hd⟩
  | cons r rest ih =>
    intro d recs hd h
    obtain ⟨dat, tail, hA, hT, rfl⟩ := amortSeq_cons_ok h
    obtain ⟨hR, hc, hci, hcp, hdebt⟩ := amortize_month_ok_inv hA
    have hr : 0 < r := hpos r (by simp)
    have hq : (1 : ℚ) < 1 + r / 12 := by linarith
    have hRgt : (1 : ℚ) < (1 + r / 12) ^ (rest.length + 1) := one_lt_pow₀ hq (by omega)
    have hRpos : (0 : ℚ) < (1 + r / 12) ^ (rest.length + 1) - 1 := by linarith
    have hRne : ((1 : ℚ) + r / 12) ^ (rest.length + 1) - 1 ≠ 0 := ne_of_gt hRpos
    have hcp_eq : cpRec dat = r / 12 / ((1 + r / 12) ^ (rest.length + 1) - 1) * d := by
      rw [hcp, hc, hci]
      generalize hRv : ((1 : ℚ) + r / 12) ^ (rest.length + 1) = R at hRne ⊢
      field_simp
      ring
    have hfrac_le : r / 12 / ((1 + r / 12) ^ (rest.length + 1) - 1) ≤ 1 := by
      rw [div_le_one hRpos]
      have hle : (1 : ℚ) + r / 12 ≤ (1 + r / 12) ^ (rest.length + 1) :=
        le_self_pow₀ (by linarith) (by omega)
      linarith
    have hfrac_nonneg : 0 ≤ r / 12 / ((1 + r / 12) ^ (rest.length + 1) - 1) :=
      div_nonneg (by linarith) (le_of_lt hRpos)
    have hcp_nonneg : 0 ≤ cpRec dat := by
      rw [hcp_eq]
      exact mul_nonneg hfrac_nonneg hd
    have hcp_le : cpRec dat ≤ d := by
      rw [hcp_eq]
      calc r / 12 / ((1 + r / 12) ^ (rest.length + 1) - 1) * d ≤ 1 * d :=
            mul_le_mul_of_nonneg_right hfrac_le hd
        _ = d := one_mul d
    have hd1_nonneg : 0 ≤ debtRec dat := by
      rw [hdebt]
      linarith
    have hd1_le : debtRec dat ≤ d := by
      rw [hdebt]
      linarith
    obtain ⟨hchain, hmem⟩ := ih (fun x hx => hpos x (by simp [hx])) hd1_nonneg hT
    constructor
    · rw [List.map_cons]
      exact List.Chain'.cons hd1_le hchain
    · intro x hx
      rw [List.map_cons, List.mem_cons] at hx
      rcases hx with rfl | hx
      · exact hd
      · exact hmem x hx

/-! ## Pointwise consequences of `RecSpec` -/

lemma recSpec_debt_getD {recs : List (ℚ × ℚ × ℚ × ℚ)} :
    ∀ {d : ℚ}, RecSpec d recs → ∀ i : ℕ, i < recs.length →
      (recs.map debtRec).getD i 0 =
        (d :: recs.map debtRec).getD i 0 - (recs.map cpRec).getD i 0 := by
  induction recs with
  | nil =>
    intro d _ i hi
    simp at hi
  | cons dat rest ih =>
    intro d hspec i hi
    obtain ⟨-, hdebt, hrest⟩ := hspec
    cases i with
    | zero =>
      simp only [List.map_cons, List.getD_cons_zero]
      exact hdebt
    | succ j =>
      simp only [List.map_cons, List.getD_cons_succ]
      exact ih hrest j (by simpa using hi)

lemma recSpec_pay_getD {recs : List (ℚ × ℚ × ℚ × ℚ)} :
    ∀ {d : ℚ}, RecSpec d recs → ∀ i : ℕ, i < recs.length →
      (recs.map payRec).getD i 0 =
        (recs.map cpRec).getD i 0 + (recs.map ciRec).getD i 0 := by
  induction recs with
  | nil =>
    intro d _ i hi
    simp at hi
  | cons dat rest ih =>
    intro d hspec i hi
    obtain ⟨hpay, -, hrest⟩ := hspec
    cases i with
    | zero =>
      simp only [List.map_cons, List.getD_cons_zero]
      exact hpay
    | succ j =>
      simp only [List.map_cons, List.getD_cons_succ]
      exact ih hrest j (by simpa using hi)

lemma cumFrom_getD (l : List ℚ) : ∀ (t : ℚ) (i : ℕ), i < l.length →
    (cumFrom t l).getD i 0 = (t :: cumFrom t l).getD i 0 + l.getD i 0 := by
  induction l with
  | nil =>
    intro t i hi
    simp at hi
  | cons x xs ih =>
    intro t i hi
    cases i with
    | zero => simp [cumFrom]
    | succ j =>
      simp only [cumFrom, List.getD_cons_succ]
      exact ih (t + x) j (by simpa using hi)

lemma cumFrom_length (l : List ℚ) : ∀ t : ℚ, (cumFrom t l).length = l.length := by
  induction l with
  | nil => intro t; rfl
  | cons x xs ih =>
    intro t
    simp only [cumFrom, List.length_cons, ih]

/-! ## Flattening the nested loops of `save_series` -/

lemma saveMonths_eq_saveFlat (cL : List ℚ) (r : ℚ) (n : ℕ) :
    ∀ st : ℕ × List ℚ, saveMonths cL r n st = saveFlat cL (List.replicate n r) st := by
  induction n with
  | zero => intro st; rfl
  | succ k ih =>
    intro st
    obtain ⟨m, s⟩ := st
    rw [List.replicate_succ]
    simp only [saveMonths, saveFlat]
    exact ih _

lemma saveFlat_append (cL l₁ l₂ : List ℚ) :
    ∀ st : ℕ × List ℚ, saveFlat cL (l₁ ++ l₂) st = saveFlat cL l₂ (saveFlat cL l₁ st) := by
  induction l₁ with
  | nil => intro st; rfl
  | cons r rest ih =>
    intro st
    obtain ⟨m, s⟩ := st
    rw [List.cons_append]
    simp only [saveFlat]
    exact ih _

lemma saveYears_eq_saveFlat (cL : List ℚ) (pa : List ℚ) :
    ∀ st : ℕ × List ℚ, saveYears cL pa st = saveFlat cL (monthRates pa) st := by
  induction pa with
  | nil => intro st; rfl
  | cons r rest ih =>
    intro st
    rw [monthRates_cons]
    simp only [saveYears]
    rw [saveFlat_append, saveMonths_eq_saveFlat, ih]

lemma saveFlat_eq_saveSeq (cL : List ℚ) (rem : List ℚ) :
    ∀ (m : ℕ) (s : List ℚ), s ≠ [] → m + rem.length ≤ cL.length →
      saveFlat cL rem (m, s) =
        (m + rem.length, s ++ saveSeq (rem.zip (cL.drop m)) s.getLast!) := by
  induction rem with
  | nil =>
    intro m s hs hm
    simp [saveFlat, saveSeq]
  | cons r rest ih =>
    intro m s hs hm
    rw [List.length_cons] at hm
    have hmlt : m < cL.length := by omega
    have hdrop : cL.drop m = cL.getD m 0 :: cL.drop (m + 1) := by
      rw [List.drop_eq_getElem_cons hmlt, List.getD_eq_getElem cL 0 hmlt]
    simp only [saveFlat]
    rw [ih (m + 1) (s ++ [s.getLast! * (1 + r / 12) + cL.getD m 0]) (by simp) (by omega)]
    rw [hdrop, List.zip_cons_cons]
    simp only [saveSeq]
    rw [getLastBang_concat]
    rw [Prod.mk.injEq]
    constructor
    · rw [List.length_cons]
      omega
    · rw [List.append_assoc]
      rfl

/-! ## Properties of `saveSeq` -/

lemma saveSeq_length (l : List (ℚ × ℚ)) : ∀ s : ℚ, (saveSeq l s).length = l.length := by
  induction l with
  | nil => intro s; rfl
  | cons rc t ih =>
    intro s
    simp only [saveSeq, List.length_cons, ih]

lemma saveSeq_getD (l : List (ℚ × ℚ)) : ∀ (s0 : ℚ) (i : ℕ), i < l.length →
    (saveSeq l s0).getD i 0 =
      (s0 :: saveSeq l s0).getD i 0 * (1 + (l.getD i (0, 0)).1 / 12) + (l.getD i (0, 0)).2 := by
  induction l with
  | nil =>
    intro s0 i hi
    simp at hi
  | cons rc t ih =>
    intro s0 i hi
    cases i with
    | zero => simp [saveSeq]
    | succ j =>
      simp only [saveSeq, List.getD_cons_succ]
      exact ih _ j (by simpa using hi)

lemma saveSeq_map_const (q : ℚ) (c : List ℚ) : ∀ s : ℚ,
    (saveSeq (c.map (fun x => (q, x))) s).getLastD s =
      c.foldl (fun a x => a * (1 + q / 12) + x) s := by
  induction c with
  | nil => intro s; rfl
  | cons x t ih =>
    intro s
    simp only [List.map_cons, saveSeq, List.foldl_cons, List.getLastD_cons]
    exact ih _

/-! ## Characterization of a successful `save_series` on explicit sequences -/

lemma save_core_seq_eq (cL paL : List ℚ) (h : cL.length = paL.length * 12) :
    save_core (NumOrSeq.seq cL) paL =
      Except.ok (0 :: saveSeq ((monthRates paL).zip cL) 0) := by
  unfold save_core
  dsimp only
  rw [if_pos h]
  rw [saveYears_eq_saveFlat,
    saveFlat_eq_saveSeq cL (monthRates paL) 0 [0] (by simp)
      (by rw [length_monthRates]; omega)]
  rw [show ([0] : List ℚ).getLast! = (0 : ℚ) from rfl]
  simp

lemma save_core_seq_getLast (cL paL : List ℚ) (h : cL.length = paL.length * 12)
    {s : List ℚ} (hs : save_core (NumOrSeq.seq cL) paL = Except.ok s) :
    s.getLast! = (saveSeq ((monthRates paL).zip cL) 0).getLastD 0 := by
  rw [save_core_seq_eq cL paL h] at hs
  obtain rfl : s = _ := (Except.ok.inj hs).symm
  exact getLastBang_cons _ _

/-- Final value of a constant-rate savings series: `save_core` over
`replicate Y q` with matching contributions ends at `foldPay (1+q/12) cL`. -/
lemma save_core_replicate_final (cL : List ℚ) (q : ℚ) (Y : ℕ)
    (h : cL.length = Y * 12)
    {s : List ℚ} (hs : save_core (NumOrSeq.seq cL) (List.replicate Y q) = Except.ok s) :
    s.getLast! = foldPay (1 + q / 12) cL := by
  rw [save_core_seq_getLast cL (List.replicate Y q)
    (by rw [List.length_replicate]; exact h) hs]
  rw [monthRates_replicate, zip_replicate_eq_map q cL (12 * Y) (by omega)]
  rw [saveSeq_map_const]
  rfl

/-! ## Indexing the per-month rate list -/

lemma monthRates_getD (pa : List ℚ) : ∀ j : ℕ, j < 12 * pa.length →
    (monthRates pa).getD j 0 = pa.getD (j / 12) 0 := by
  induction pa with
  | nil =>
    intro j hj
    simp at hj
  | cons r t ih =>
    intro j hj
    rw [monthRates_cons]
    by_cases h12 : j < 12
    · rw [List.getD_append _ _ _ _ (by rw [List.length_replicate]; exact h12)]
      rw [getD_replicate 12 j r h12, Nat.div_eq_of_lt h12, List.getD_cons_zero]
    · push_neg at h12
      obtain ⟨k, rfl⟩ : ∃ k, j = 12 + k := ⟨j - 12, by omega⟩
      rw [List.getD_append_right _ _ _ _ (by rw [List.length_replicate]; omega),
        List.length_replicate, show 12 + k - 12 = k from by omega]
      rw [ih k (by rw [List.length_cons] at hj; omega)]
      rw [show (12 + k) / 12 = k / 12 + 1 from by rw [Nat.add_comm]; exact Nat.add_div_right k (by norm_num)]
      rw [List.getD_cons_succ]

/-! ## A successful `amortize_schedule` in components -/

lemma amortize_schedule_ok_inv {p : ℚ} {pa : List ℚ} {out : Schedule}
    (h : amortize_schedule p pa = Except.ok out) :
    ∃ recs, amortSeq p (monthRates pa) = Except.ok recs ∧
      out = pushAll 0 (init_schedule p) recs := by
  rw [amortize_schedule_eq] at h
  cases hA : amortSeq p (monthRates pa) with
  | error e => rw [hA] at h; cases h
  | ok recs =>
    rw [hA] at h
    dsimp only at h
    exact ⟨recs, rfl, (Except.ok.inj h).symm⟩

lemma pushAll_init_c (p : ℚ) (recs : List (ℚ × ℚ × ℚ × ℚ)) :
    (pushAll 0 (init_schedule p) recs).c = 0 :: recs.map payRec := by
  rw [pushAll_c]
  rfl

lemma pushAll_init_cp (p : ℚ) (recs : List (ℚ × ℚ × ℚ × ℚ)) :
    (pushAll 0 (init_schedule p) recs).cp = 0 :: recs.map cpRec := by
  rw [pushAll_cp]
  rfl

lemma pushAll_init_ci (p : ℚ) (recs : List (ℚ × ℚ × ℚ × ℚ)) :
    (pushAll 0 (init_schedule p) recs).ci = 0 :: recs.map ciRec := by
  rw [pushAll_ci]
  rfl

lemma pushAll_init_debt (p : ℚ) (recs : List (ℚ × ℚ × ℚ × ℚ)) :
    (pushAll 0 (init_schedule p) recs).debt = p :: recs.map debtRec := by
  rw [pushAll_debt]
  rfl

lemma pushAll_init_ti (p : ℚ) (recs : List (ℚ × ℚ × ℚ × ℚ)) :
    (pushAll 0 (init_schedule p) recs).ti = 0 :: cumFrom 0 (recs.map ciRec) := by
  rw [pushAll_ti]
  rfl

lemma amortize_schedule_ok_of_pos (p : ℚ) {pa : List ℚ} (hpos : ∀ r ∈ pa, 0 < r) :
    ∃ out, amortize_schedule p pa = Except.ok out := by
  have hmr : ∀ x ∈ monthRates pa, 0 < x := fun x hx => hpos x (mem_monthRates hx)
  obtain ⟨recs, hrecs⟩ := amortSeq_ok_of_pos hmr p
  rw [amortize_schedule_eq, hrecs]
  exact ⟨_, rfl⟩

lemma exceptIsOk_iff {ε α : Type} (e : Except ε α) :
    e.isOk = true ↔ ∃ x, e = Except.ok x := by
  cases e <;> simp [Except.isOk, Except.toBool]

/-!
## Claim theorems
-/

unseal Rat.add Rat.mul Rat.sub Rat.inv in
/-- Claim C1 (code bug): `homevsrent` does compute the four month-aligned
series (its body runs to completion on a valid input), but the function has
no `return` statement, so the call returns Python `None` — not the tuple
`(homeNetWorth, rentNetWorth, monthlyInterest, monthlyRent)` the spec and
the function's own docstring promise. -/
theorem homevsrent_returns_none :
    (homevsrent_body 1 100000 0 500 0 (1/20) (1/20)).isOk = true ∧
    homevsrent 1 100000 0 500 0 (1/20) (1/20) = Except.ok none := by
  decide

unseal Rat.add Rat.mul Rat.sub Rat.inv in
/-- Claim C2 (code bug): `amortize_month` has no special case for a zero
annual rate.  At `principal = 1200`, `annualRate = 0`, `monthsRemaining = 12`
the annuity denominator `R - 1 = (1+0)^12 - 1` is zero and the code raises
`ZeroDivisionError` instead of returning `payment = 100 = 1200/12`. -/
theorem amortize_month_zero_rate_divzero :
    amortize_month 1200 0 12 = Except.error PyError.divZero := by
  decide

unseal Rat.add Rat.mul Rat.sub Rat.inv in
/-- Claim C3, counterexample: the all-zero rate sequence `[0]` has every
entry `≥ 0` and is non-empty, yet `amortize_schedule` raises
`ZeroDivisionError` on its first month, so no schedule (and no final
remaining debt) is produced. -/
theorem amortize_schedule_zero_rate_fails :
    amortize_schedule 1200 [0] = Except.error PyError.divZero := by
  decide

/-- Claim C3, amended: for every principal and every non-empty annual rate
sequence with all entries strictly positive, `amortize_schedule` succeeds
and the final remaining debt is exactly 0 in exact arithmetic (hence within
any tolerance, in particular 1e-6 relative to the principal). -/
theorem amortize_schedule_pos_rates_final_debt_zero (p : ℚ) (pa : List ℚ)
    (hne : pa ≠ []) (hpos : ∀ r ∈ pa, 0 < r) :
    ∃ out, amortize_schedule p pa = Except.ok out ∧ out.debt.getLast! = 0 := by
  obtain ⟨out, hout⟩ := amortize_schedule_ok_of_pos p hpos
  refine ⟨out, hout, ?_⟩
  obtain ⟨recs, hrecs, rfl⟩ := amortize_schedule_ok_inv hout
  rw [pushAll_init_debt, getLastBang_cons]
  have hlen : 0 < (monthRates pa).length := by
    rw [length_monthRates]
    have := List.length_pos.mpr hne
    omega
  exact amortSeq_final_debt (List.ne_nil_of_length_pos hlen) hrecs

unseal Rat.add Rat.mul Rat.sub Rat.inv in
/-- Witness for C3 at `principal = 1200`, rates `[3/25]` (12 percent). -/
theorem amortize_schedule_pos_rates_final_debt_zero_witness :
    ∃ out, amortize_schedule 1200 [3/25] = Except.ok out ∧ out.debt.getLast! = 0 :=
  amortize_schedule_pos_rates_final_debt_zero 1200 [3/25] (by decide) (by decide)

unseal Rat.add Rat.mul Rat.sub Rat.inv in
/-- Claim C7, counterexample: with `annualRate = 0` (satisfying the
precondition `annualRate ≥ 0`) and `monthsRemaining = 12 > 0`,
`amortize_month` nevertheless fails — with a `ZeroDivisionError`, not an
`InvalidArgument` — refuting both that no error is raised under the stated
preconditions and that failure happens only for `monthsRemaining ≤ 0`. -/
theorem amortize_month_fails_under_preconditions :
    (0 : ℚ) ≤ 0 ∧ (0 : ℕ) < 12 ∧
    amortize_month 100 0 12 = Except.error PyError.divZero := by
  refine ⟨le_refl 0, by norm_num, ?_⟩
  decide

/-- Claim C7, amended: `amortize_month` performs no argument validation and
never raises an `InvalidArgument`-style error; its only failure is the
division-by-zero error, raised exactly when the annuity denominator
vanishes, i.e. when `(1 + annualRate/12) ^ monthsRemaining = 1` (so in
particular at `monthsRemaining = 0`, and at every `monthsRemaining` when
`annualRate = 0`); for `annualRate > 0` and `monthsRemaining > 0` the call
returns without error. -/
theorem amortize_month_failure_characterization (p pa : ℚ) (m : ℕ) :
    (amortize_month p pa m = Except.error PyError.divZero ↔ (1 + pa / 12) ^ m = 1) ∧
    (0 < pa → 0 < m → ∃ dat, amortize_month p pa m = Except.ok dat) := by
  constructor
  · exact amortize_month_divZero_iff p pa m
  · intro hpa hm
    have hq : (1 : ℚ) < 1 + pa / 12 := by linarith
    have hR : (1 : ℚ) < (1 + pa / 12) ^ m := one_lt_pow₀ hq (by omega)
    exact ⟨_, amortize_month_eq_ok p pa m (by linarith)⟩

/-- Witness for C7 at `p = 100`, `annualRate = 3/25`, `monthsRemaining = 24`. -/
theorem amortize_month_failure_characterization_witness :
    (amortize_month 100 (3/25) 24 = Except.error PyError.divZero ↔
      (1 + (3/25 : ℚ) / 12) ^ 24 = 1) ∧
    (∃ dat, amortize_month 100 (3/25) 24 = Except.ok dat) :=
  ⟨(amortize_month_failure_characterization 100 (3/25) 24).1,
   (amortize_month_failure_characterization 100 (3/25) 24).2 (by norm_num) (by norm_num)⟩

unseal Rat.add Rat.mul Rat.sub Rat.inv in
/-- Claim C8, counterexample: with a 12-entry contribution sequence and a
scalar rate, omitting the `years` argument makes `save_series` raise
(`np.ones(NaN)`) — it does not broadcast the rate over
`length(contributions)/12` years, while the corresponding explicit-sequence
call succeeds. -/
theorem save_series_scalar_rate_requires_years :
    save_series (NumOrSeq.seq (List.replicate 12 (1 : ℚ))) (NumOrSeq.num (1/20)) none =
      Except.error PyError.valueError ∧
    (save_series (NumOrSeq.seq (List.replicate 12 (1 : ℚ)))
      (NumOrSeq.seq (List.replicate 1 (1/20))) none).isOk = true := by
  decide

/-- Claim C8, amended: when the `years` argument `k` is passed explicitly, a
scalar annual rate `r` is broadcast to the per-year sequence
`replicate k r`, and the call returns exactly what the explicit-sequence
call returns; with `years` omitted the scalar-rate call fails instead. -/
theorem save_series_scalar_rate_broadcast (c : List ℚ) (r : ℚ) (k : ℕ) :
    save_series (NumOrSeq.seq c) (NumOrSeq.num r) (some k) =
      save_series (NumOrSeq.seq c) (NumOrSeq.seq (List.replicate k r)) none := rfl

/-- Claim C4 (confirmed): every schedule returned by `amortize_schedule`
satisfies the record invariants — record 0 has zero payment, principal
portion, interest portion and cumulative interest and carries the initial
principal as remaining debt; for every later month `i`,
`debt[i] = debt[i-1] - cp[i]`, `ti[i] = ti[i-1] + ci[i]` and
`c[i] = cp[i] + ci[i]`; and for an empty rate sequence the schedule is
record 0 alone. -/
theorem amortize_schedule_invariants (p : ℚ) (pa : List ℚ) (out : Schedule)
    (h : amortize_schedule p pa = Except.ok out) :
    (out.c.getD 0 0 = 0 ∧ out.cp.getD 0 0 = 0 ∧ out.ci.getD 0 0 = 0 ∧
      out.ti.getD 0 0 = 0 ∧ out.debt.getD 0 0 = p) ∧
    (∀ i : ℕ, i + 1 < out.debt.length →
      out.debt.getD (i + 1) 0 = out.debt.getD i 0 - out.cp.getD (i + 1) 0 ∧
      out.ti.getD (i + 1) 0 = out.ti.getD i 0 + out.ci.getD (i + 1) 0 ∧
      out.c.getD (i + 1) 0 = out.cp.getD (i + 1) 0 + out.ci.getD (i + 1) 0) ∧
    (pa = [] → out = init_schedule p) := by
  obtain ⟨recs, hrecs, rfl⟩ := amortize_schedule_ok_inv h
  have hspec := amortSeq_recSpec hrecs
  rw [pushAll_init_c, pushAll_init_cp, pushAll_init_ci, pushAll_init_debt, pushAll_init_ti]
  refine ⟨⟨rfl, rfl, rfl, rfl, rfl⟩, ?_, ?_⟩
  · intro i hi
    have hi' : i < recs.length := by
      rw [List.length_cons, List.length_map] at hi
      omega
    refine ⟨?_, ?_, ?_⟩
    · rw [List.getD_cons_succ, List.getD_cons_succ]
      exact recSpec_debt_getD hspec i hi'
    · rw [List.getD_cons_succ, List.getD_cons_succ]
      exact cumFrom_getD (recs.map ciRec) 0 i (by rw [List.length_map]; exact hi')
    · rw [List.getD_cons_succ, List.getD_cons_succ, List.getD_cons_succ]
      exact recSpec_pay_getD hspec i hi'
  · intro hpa
    subst hpa
    simp only [monthRates_nil, amortSeq] at hrecs
    obtain rfl : recs = [] := (Except.ok.inj hrecs).symm
    rfl

/-- Witness for C4 at `p = 5` with the empty rate sequence, whose schedule
is record 0 alone. -/
theorem amortize_schedule_invariants_witness :
    (((init_schedule 5).c.getD 0 0 = 0 ∧ (init_schedule 5).cp.getD 0 0 = 0 ∧
      (init_schedule 5).ci.getD 0 0 = 0 ∧ (init_schedule 5).ti.getD 0 0 = 0 ∧
      (init_schedule 5).debt.getD 0 0 = 5) ∧
    (∀ i : ℕ, i + 1 < (init_schedule 5).debt.length →
      (init_schedule 5).debt.getD (i + 1) 0 =
        (init_schedule 5).debt.getD i 0 - (init_schedule 5).cp.getD (i + 1) 0 ∧
      (init_schedule 5).ti.getD (i + 1) 0 =
        (init_schedule 5).ti.getD i 0 + (init_schedule 5).ci.getD (i + 1) 0 ∧
      (init_schedule 5).c.getD (i + 1) 0 =
        (init_schedule 5).cp.getD (i + 1) 0 + (init_schedule 5).ci.getD (i + 1) 0) ∧
    (([] : List ℚ) = [] → init_schedule 5 = init_schedule (5 : ℚ))) :=
  amortize_schedule_invariants 5 [] (init_schedule 5) rfl

/-- Claim C5 (confirmed): on explicit sequences with
`length(contributions) = 12 * length(annualRates)`, `save_series` succeeds
and returns a series with `length(contributions) + 1` entries, starting at
0, where entry `i ≥ 1` is
`s[i-1] * (1 + annualRates[(i-1) div 12]/12) + contributions[i-1]`. -/
theorem save_series_seq_spec (c pa : List ℚ) (y : Option ℕ)
    (h : c.length = 12 * pa.length) :
    ∃ s, save_series (NumOrSeq.seq c) (NumOrSeq.seq pa) y = Except.ok s ∧
      s.length = c.length + 1 ∧ s.getD 0 0 = 0 ∧
      ∀ i : ℕ, 1 ≤ i → i ≤ c.length →
        s.getD i 0 =
          s.getD (i - 1) 0 * (1 + pa.getD ((i - 1) / 12) 0 / 12) + c.getD (i - 1) 0 := by
  have hlen : c.length = pa.length * 12 := by omega
  refine ⟨0 :: saveSeq ((monthRates pa).zip c) 0, ?_, ?_, ?_, ?_⟩
  · exact save_core_seq_eq c pa hlen
  · rw [List.length_cons, saveSeq_length, List.length_zip, length_monthRates]
    omega
  · rfl
  · intro i h1 h2
    obtain ⟨j, rfl⟩ : ∃ j, i = j + 1 := ⟨i - 1, by omega⟩
    have hj : j < ((monthRates pa).zip c).length := by
      rw [List.length_zip, length_monthRates]
      omega
    rw [List.getD_cons_succ, saveSeq_getD _ 0 j hj,
      zip_getD _ _ j (by rw [length_monthRates]; omega) (by omega),
      monthRates_getD pa j (by omega)]
    simp only [Nat.add_sub_cancel]

/-- Witness for C5 with 24 contributions of 5 over the two-year rate
sequence `[3/25, 1/5]`. -/
theorem save_series_seq_spec_witness :
    ∃ s, save_series (NumOrSeq.seq (List.replicate 24 (5 : ℚ)))
        (NumOrSeq.seq [3/25, 1/5]) none = Except.ok s ∧
      s.length = (List.replicate 24 (5 : ℚ)).length + 1 ∧ s.getD 0 0 = 0 ∧
      ∀ i : ℕ, 1 ≤ i → i ≤ (List.replicate 24 (5 : ℚ)).length →
        s.getD i 0 =
          s.getD (i - 1) 0 * (1 + ([3/25, 1/5] : List ℚ).getD ((i - 1) / 12) 0 / 12) +
            (List.replicate 24 (5 : ℚ)).getD (i - 1) 0 :=
  save_series_seq_spec (List.replicate 24 5) [3/25, 1/5] none (by decide)

/-- Claim C10 (confirmed): for a nonnegative principal and a non-empty rate
sequence with all rates strictly positive, `amortize_schedule` succeeds, its
remaining-debt column is monotonically non-increasing, and every entry of it
is nonnegative (in exact arithmetic). -/
theorem amortize_schedule_debt_monotone_nonneg (p : ℚ) (pa : List ℚ) (hp : 0 ≤ p)
    (hne : pa ≠ []) (hpos : ∀ r ∈ pa, 0 < r) :
    ∃ out, amortize_schedule p pa = Except.ok out ∧
      List.Chain' (fun a b => b ≤ a) out.debt ∧ ∀ x ∈ out.debt, 0 ≤ x := by
  obtain ⟨out, hout⟩ := amortize_schedule_ok_of_pos p hpos
  refine ⟨out, hout, ?_⟩
  obtain ⟨recs, hrecs, rfl⟩ := amortize_schedule_ok_inv hout
  rw [pushAll_init_debt]
  exact amortSeq_debt_bounds (fun x hx => hpos x (mem_monthRates hx)) hp hrecs

unseal Rat.add Rat.mul Rat.sub Rat.inv in
/-- Witness for C10 at `p = 10`, rates `[3/25]`. -/
theorem amortize_schedule_debt_monotone_nonneg_witness :
    ∃ out, amortize_schedule 10 [3/25] = Except.ok out ∧
      List.Chain' (fun a b => b ≤ a) out.debt ∧ ∀ x ∈ out.debt, 0 ≤ x :=
  amortize_schedule_debt_monotone_nonneg 10 [3/25] (by decide) (by decide) (by decide)

set_option maxRecDepth 100000 in
unseal Rat.add Rat.mul Rat.sub Rat.inv in
/-- Claim C6, counterexample: at `principal = 600000`, `monthlySalary =
1000`, `shortTermYears = 0`, `longTermYears = 5`, every contribution of the
long-term series `monthlySalary - scheduledPayment` is negative (the
scheduled payment exceeds the salary), yet `mortgage_invest` does not fail:
the `assert` only inspects the short-term series (here 60 copies of the
salary), so the call returns both series. -/
theorem mortgage_invest_long_series_unchecked :
    (Except.map
      (fun o : Schedule =>
        ((o.c.drop 1).map (fun x => (1000 : ℚ) - x)).any (fun x => decide (x < 0)))
      (amortize_schedule 600000 (List.replicate 5 (13/500))) = Except.ok true) ∧
    (mortgage_invest 600000 1000 (13/500) (13/500) 0 5).isOk = true := by
  decide

/-- Claim C6, amended: `mortgage_invest` fails (with the `AssertionError` of
`assert sum(msav1 < 0) == 0`) whenever some contribution of the short-term
series — `monthlySalary` minus the short-term scheduled payments, extended
by `(longTermYears - shortTermYears) * 12` copies of the salary — is
negative; the long-term contribution series is never checked.  In
particular the call fails for `principal = 600000`, `monthlySalary = 1000`,
`shortTermYears = 5`. -/
theorem mortgage_invest_negative_short_fails (p ms Rr Hr : ℚ) (Y1 Y2 : ℕ)
    (h : Except.map (fun l : List ℚ => l.any (fun x => decide (x < 0)))
      (msav1_of p ms Hr Y1 Y2) = Except.ok true) :
    mortgage_invest p ms Rr Hr Y1 Y2 = Except.error PyError.assertFail := by
  unfold msav1_of at h
  unfold mortgage_invest
  cases hA : amortize_schedule p (List.replicate Y1 Hr) with
  | error e =>
    rw [hA] at h
    simp [Except.map] at h
  | ok o1 =>
    rw [hA] at h
    dsimp only at h ⊢
    split_ifs at h ⊢ with hY hany
    · simp [Except.map] at h
    · rfl
    · simp only [Except.map, Except.ok.injEq] at h
      exact absurd h hany

set_option maxRecDepth 100000 in
unseal Rat.add Rat.mul Rat.sub Rat.inv in
/-- Witness for C6 at `principal = 600000`, `monthlySalary = 1000`,
`shortTermYears = longTermYears = 5` (the spec's infeasible scenario). -/
theorem mortgage_invest_negative_short_fails_witness :
    mortgage_invest 600000 1000 (13/500) (13/500) 5 5 = Except.error PyError.assertFail :=
  mortgage_invest_negative_short_fails 600000 1000 (13/500) (13/500) 5 5 (by decide)

/-! ## Inversion of a successful `mortgage_invest` call -/

lemma mortgage_invest_ok_inv {p ms Rr Hr : ℚ} {Y1 Y2 : ℕ} {out : List ℚ × List ℚ}
    (h : mortgage_invest p ms Rr Hr Y1 Y2 = Except.ok out) :
    ∃ o1 o2, amortize_schedule p (List.replicate Y1 Hr) = Except.ok o1 ∧
      amortize_schedule p (List.replicate Y2 Hr) = Except.ok o2 ∧
      Y1 ≤ Y2 ∧
      save_series (NumOrSeq.seq ((o1.c.drop 1).map (fun x => ms - x) ++
          List.replicate ((Y2 - Y1) * 12) ms))
        (NumOrSeq.seq (List.replicate Y2 Rr)) none = Except.ok out.1 ∧
      save_series (NumOrSeq.seq ((o2.c.drop 1).map (fun x => ms - x)))
        (NumOrSeq.seq (List.replicate Y2 Rr)) none = Except.ok out.2 := by
  unfold mortgage_invest at h
  cases hA1 : amortize_schedule p (List.replicate Y1 Hr) with
  | error e => rw [hA1] at h; simp at h
  | ok o1 =>
    rw [hA1] at h
    dsimp only at h
    split_ifs at h with hY hany
    cases hS1 : save_series (NumOrSeq.seq ((o1.c.drop 1).map (fun x => ms - x) ++
        List.replicate ((Y2 - Y1) * 12) ms))
        (NumOrSeq.seq (List.replicate Y2 Rr)) none with
    | error e => rw [hS1] at h; simp at h
    | ok S1 =>
      rw [hS1] at h
      dsimp only at h
      cases hA2 : amortize_schedule p (List.replicate Y2 Hr) with
      | error e => rw [hA2] at h; simp at h
      | ok o2 =>
        rw [hA2] at h
        dsimp only at h
        cases hS2 : save_series (NumOrSeq.seq ((o2.c.drop 1).map (fun x => ms - x)))
            (NumOrSeq.seq (List.replicate Y2 Rr)) none with
        | error e => rw [hS2] at h; simp at h
        | ok S2 =>
          rw [hS2] at h
          dsimp only at h
          obtain rfl : out = (S1, S2) := (Except.ok.inj h).symm
          exact ⟨o1, o2, rfl, rfl, by omega, hS1, hS2⟩

/-- The payment column of a successful constant-rate schedule: it has
`12 * Y` entries, and its discounted sum equals the principal compounded
over the full term (because the final debt is zero). -/
lemma replicate_rate_pay_foldPay {p ρ : ℚ} {Y : ℕ} {o : Schedule}
    (hY : 1 ≤ Y) (hA : amortize_schedule p (List.replicate Y ρ) = Except.ok o) :
    (o.c.drop 1).length = 12 * Y ∧
    foldPay (1 + ρ / 12) (o.c.drop 1) = p * (1 + ρ / 12) ^ (12 * Y) := by
  obtain ⟨recs, hrecs, rfl⟩ := amortize_schedule_ok_inv hA
  rw [monthRates_replicate] at hrecs
  have hlen : recs.length = 12 * Y := by
    rw [amortSeq_ok_length hrecs, List.length_replicate]
  have hfold := amortSeq_debt_foldPay hrecs
  have hfinal : (recs.map debtRec).getLastD p = 0 := by
    refine amortSeq_final_debt ?_ hrecs
    apply List.ne_nil_of_length_pos
    rw [List.length_replicate]
    omega
  rw [pushAll_init_c]
  rw [show (0 :: recs.map payRec).drop 1 = recs.map payRec from rfl]
  constructor
  · rw [List.length_map, hlen]
  · rw [hfinal] at hfold
    linarith [hfold]

lemma save_ok_final {cL : List ℚ} {ρ : ℚ} {Y : ℕ} {S : List ℚ}
    (hlen : cL.length = Y * 12)
    (hS : save_series (NumOrSeq.seq cL) (NumOrSeq.seq (List.replicate Y ρ)) none =
      Except.ok S) :
    S.getLast! = foldPay (1 + ρ / 12) cL := by
  have hS' : save_core (NumOrSeq.seq cL) (List.replicate Y ρ) = Except.ok S := hS
  exact save_core_replicate_final cL ρ Y hlen hS'

set_option maxRecDepth 100000 in
unseal Rat.add Rat.mul Rat.sub Rat.inv in
/-- Claim C9, counterexample: at `principal = 1200`, `monthlySalary = 200`,
equal rates `12/100`, `shortTermYears = 0 ≤ longTermYears = 1`, every
contribution of both series is nonnegative and the call succeeds, yet the
two final savings values differ by at least 1200 (the short-term saver
never repays the principal), so they are not approximately equal. -/
theorem mortgage_invest_equal_rates_zero_short_term :
    (Except.map (fun l : List ℚ => l.all (fun x => decide (0 ≤ x)))
      (msav1_of 1200 200 (12/100) 0 1) = Except.ok true) ∧
    (Except.map
      (fun o : Schedule =>
        ((o.c.drop 1).map (fun x => (200 : ℚ) - x)).all (fun x => decide (0 ≤ x)))
      (amortize_schedule 1200 (List.replicate 1 (12/100))) = Except.ok true) ∧
    (Except.map
      (fun s : List ℚ × List ℚ => decide ((1200 : ℚ) ≤ s.1.getLast! - s.2.getLast!))
      (mortgage_invest 1200 200 (12/100) (12/100) 0 1) = Except.ok true) := by
  decide

/-- Claim C9, amended: whenever `investReturn = loanRate` and
`1 ≤ shortTermYears`, any successful `mortgage_invest` call returns two
savings series whose final values are exactly equal (in exact arithmetic),
regardless of `shortTermYears ≤ longTermYears`; in particular this covers
`mortgage_invest(1000000, 7000, 0.026, 0.026, 20, 20)`. -/
theorem mortgage_invest_equal_rates_equal_finals (p ms ρ : ℚ) (Y1 Y2 : ℕ)
    (hY1 : 1 ≤ Y1) (hok : (mortgage_invest p ms ρ ρ Y1 Y2).isOk = true) :
    ∃ S1 S2, mortgage_invest p ms ρ ρ Y1 Y2 = Except.ok (S1, S2) ∧
      S1.getLast! = S2.getLast! := by
  obtain ⟨out, hout⟩ := (exceptIsOk_iff _).mp hok
  obtain ⟨o1, o2, hA1, hA2, hY12, hS1, hS2⟩ := mortgage_invest_ok_inv hout
  refine ⟨out.1, out.2, by rw [Prod.mk.eta]; exact hout, ?_⟩
  obtain ⟨hlen1, hfold1⟩ := replicate_rate_pay_foldPay hY1 hA1
  obtain ⟨hlen2, hfold2⟩ := replicate_rate_pay_foldPay (le_trans hY1 hY12) hA2
  have hmsav1len : ((o1.c.drop 1).map (fun x => ms - x) ++
      List.replicate ((Y2 - Y1) * 12) ms).length = Y2 * 12 := by
    rw [List.length_append, List.length_map, List.length_replicate, hlen1]
    omega
  have hS1f := save_ok_final hmsav1len hS1
  have hmsav2len : ((o2.c.drop 1).map (fun x => ms - x)).length = Y2 * 12 := by
    rw [List.length_map, hlen2]
    omega
  have hS2f := save_ok_final hmsav2len hS2
  rw [hS1f, hS2f, foldPay_append, foldPay_map_sub, foldPay_map_sub,
    List.length_replicate, hlen1, hlen2, hfold1, hfold2]
  have hsplit : foldPay (1 + ρ / 12) (List.replicate (12 * Y2) ms) =
      foldPay (1 + ρ / 12) (List.replicate (12 * Y1) ms) *
        (1 + ρ / 12) ^ ((Y2 - Y1) * 12) +
      foldPay (1 + ρ / 12) (List.replicate ((Y2 - Y1) * 12) ms) := by
    rw [show 12 * Y2 = 12 * Y1 + (Y2 - Y1) * 12 from by omega, List.replicate_add,
      foldPay_append, List.length_replicate]
  have hpow : ((1 : ℚ) + ρ / 12) ^ (12 * Y1) * (1 + ρ / 12) ^ ((Y2 - Y1) * 12) =
      (1 + ρ / 12) ^ (12 * Y2) := by
    rw [← pow_add]
    congr 1
    omega
  rw [hsplit]
  linear_combination (-p) * hpow

set_option maxRecDepth 100000 in
unseal Rat.add Rat.mul Rat.sub Rat.inv in
/-- Witness for C9 at `p = 1200`, `ms = 1000`, rate `12/100`,
`shortTermYears = 1`, `longTermYears = 2`. -/
theorem mortgage_invest_equal_rates_equal_finals_witness :
    ∃ S1 S2, mortgage_invest 1200 1000 (12/100) (12/100) 1 2 = Except.ok (S1, S2) ∧
      S1.getLast! = S2.getLast! :=
  mortgage_invest_equal_rates_equal_finals 1200 1000 (12/100) 1 2 (by norm_num)
    (by decide)
